import Mathlib

/-!
Shallow embedding of `src/multiclou.py`: a sequential orchestrator that copies
notebooks and their access-control settings between cloud workspaces.  Pure
helpers (`get_workspace_config`, the ACL-flattening loop of `get_permissions`,
the request-body construction and method selection of `grant_permissions`) are
embedded as Lean functions; the HTTP layer is replaced by a response oracle,
and the orchestrator `sync_notebooks_and_permissions` is embedded as a function
from the oracle to the list of API calls it issues (its trace) together with a
flag telling whether the run completed normally or died on an uncaught
exception.
-/

namespace MultiCloud

/-- Environment model: `os.getenv`, a map from variable name to optional value. -/
def Env : Type := String → Option String

/-- A workspace configuration entry: the `url`/`token` pair built from
environment variables.  Either value may be absent, since `os.getenv` returns
`None` when a variable is unset. -/
structure WorkspaceConfig where
  url : Option String
  token : Option String
  deriving DecidableEq, Repr

/-- The `WORKSPACE_CONFIG` dictionary (`multiclou.py` lines 11-24): insertion
ordered association list keyed by provider name. -/
def WORKSPACE_CONFIG (env : Env) : List (String × WorkspaceConfig) :=
  [("AWS", { url := env "AWS_WORKSPACE_URL", token := env "AWS_ACCESS_TOKEN" }),
   ("AZURE", { url := env "AZURE_WORKSPACE_URL", token := env "AZURE_ACCESS_TOKEN" }),
   ("GCP", { url := env "GCP_WORKSPACE_URL", token := env "GCP_ACCESS_TOKEN" })]

/-- Python `dict.get(key, None)` on an association list. -/
def configLookup : List (String × WorkspaceConfig) → String → Option WorkspaceConfig
  | [], _ => none
  | (k, v) :: rest, key => if k = key then some v else configLookup rest key

/-- Python's `str.upper()`, character-wise ASCII uppercasing. -/
def pyUpper (s : String) : String := ⟨s.data.map Char.toUpper⟩

/-- `get_workspace_config` (lines 38-39): `WORKSPACE_CONFIG.get(cloud_provider.upper(), None)`. -/
def get_workspace_config (env : Env) (cloud_provider : String) : Option WorkspaceConfig :=
  configLookup (WORKSPACE_CONFIG env) (pyUpper cloud_provider)

/-- Python truthiness of an optional string (`if git_url:`, `if cluster_id:`):
`None` and the empty string are falsy; every other string is truthy. -/
def pyTruthy : Option String → Bool
  | none => false
  | some s => s ≠ ""

/-! ### Permission mapper (`get_permissions`, lines 127-139) -/

/-- One element of a nested `all_permissions` array; its `permission_level`
field may be absent (`item.get("permission_level", "UNKNOWN")`). -/
structure AllPerm where
  permission_level : Option String
  deriving DecidableEq, Repr

/-- One raw entry of an `access_control_list` array.  Each field may be absent;
`item.get` is used for all of them in the source. -/
structure AclItem where
  user_name : Option String
  all_permissions : Option (List AllPerm)
  permission_level : Option String
  deriving DecidableEq, Repr

/-- The level computed for one ACL entry (lines 130-136):
`all_permissions = item.get("all_permissions", [])`; the `if all_permissions:`
truthiness test sends an absent or empty array to the `else` branch. -/
def itemLevel (item : AclItem) : String :=
  match item.all_permissions.getD [] with
  | [] => item.permission_level.getD "UNKNOWN"
  | ap :: _ => ap.permission_level.getD "UNKNOWN"

/-- Python dict assignment `d[k] = v` on an insertion-ordered association
list: an existing key keeps its position and gets the new value; a new key is
appended at the end. -/
def dictInsert : List (Option String × String) → Option String → String → List (Option String × String)
  | [], k, v => [(k, v)]
  | (k', v') :: rest, k, v =>
    if k' = k then (k', v) :: rest else (k', v') :: dictInsert rest k v

/-- Python dict lookup `d[k]` / `d.get(k)` on the association list. -/
def dictLookup : List (Option String × String) → Option String → Option String
  | [], _ => none
  | (k', v) :: rest, k => if k' = k then some v else dictLookup rest k

/-- The `user_permissions` dict built by the loop of `get_permissions`
(lines 128-137): for each ACL entry, `user_permissions[user_name] = permission_level`. -/
def get_permissions_map (acl : List AclItem) : List (Option String × String) :=
  acl.foldl (fun d item => dictInsert d item.user_name (itemLevel item)) []

/-- Written from the spec's words (§4.4): "if the entry carries a nested
`all_permissions` array, take the `permission_level` of its first element,
else fall back to a top-level `permission_level` field, defaulting to the
literal string UNKNOWN if neither is present."  An array that is present but
empty has no first element, so the fallback applies to it as well. -/
def spec_entry_level (item : AclItem) : String :=
  match item.all_permissions with
  | some (ap :: _) => ap.permission_level.getD "UNKNOWN"
  | some [] => item.permission_level.getD "UNKNOWN"
  | none => item.permission_level.getD "UNKNOWN"

/-- Written from the spec's words: the entry whose level a principal ends up
with is the LAST entry of the ACL carrying that `user_name` ("later entries
for the same principal overwrite earlier ones"). -/
def spec_last_entry : List AclItem → Option String → Option AclItem
  | [], _ => none
  | it :: rest, k =>
    match spec_last_entry rest k with
    | some r => some r
    | none => if it.user_name = k then some it else none

/-- Written from the spec's words: the level the flattened mapping assigns to
a principal, when the principal occurs at all. -/
def spec_level_of (acl : List AclItem) (k : Option String) : Option String :=
  (spec_last_entry acl k).map spec_entry_level

/-! ### Grant-permissions body and method (`grant_permissions`, lines 162-184) -/

/-- One entry of the `access_control_list` request body built by
`grant_permissions`.  `user_name` is optional because the principal comes from
a flattened permissions map whose key may be Python `None`. -/
structure AclGrant where
  user_name : Option String
  permission_level : String
  cluster_id : Option String
  deriving DecidableEq, Repr

/-- The `access_control_list` of the request body (lines 162-176): always the
`{email, permission_level}` entry; a truthy `cluster_id` appends a
`CAN_ATTACH_TO` entry for the same principal carrying the cluster id. -/
def grant_acl (email : Option String) (permission_level : String) (cluster_id : Option String) :
    List AclGrant :=
  let base : List AclGrant :=
    [{ user_name := email, permission_level := permission_level, cluster_id := none }]
  if pyTruthy cluster_id then
    base ++ [{ user_name := email, permission_level := "CAN_ATTACH_TO", cluster_id := cluster_id }]
  else base

/-- `charsIsPrefixOf pat s` decides whether `pat` is an initial segment of `s`. -/
def charsIsPrefixOf : List Char → List Char → Bool
  | [], _ => true
  | _ :: _, [] => false
  | a :: as, b :: bs => a = b && charsIsPrefixOf as bs

/-- `charsContains pat s` decides whether `pat` occurs contiguously in `s`,
the semantics of Python's `pat in s` on strings. -/
def charsContains (pat : List Char) : List Char → Bool
  | [] => charsIsPrefixOf pat []
  | c :: rest => charsIsPrefixOf pat (c :: rest) || charsContains pat rest

/-- Python's substring test `pat in s`. -/
def strContains (s pat : String) : Bool := charsContains pat.data s.data

/-- Written from the spec's words: the URL "contains the managed platform's
public domain substring", i.e. it decomposes around an occurrence of it. -/
def SpecContains (s pat : String) : Prop :=
  ∃ pre post : List Char, s.data = pre ++ pat.data ++ post

/-- Method selection of `grant_permissions` (line 178):
`"PATCH" if "databricks.com" in workspace_url else "PUT"`. -/
def grant_method (workspace_url : String) : String :=
  if strContains workspace_url "databricks.com" then "PATCH" else "PUT"

/-! ### The HTTP oracle and the orchestrator trace -/

/-- Result of a Python call in the embedding: a normal return value, or an
uncaught exception escaping the function. -/
inductive PyRes (α : Type) where
  | val : α → PyRes α
  | crash : PyRes α
  deriving DecidableEq, Repr

/-- The value of one base64 alphabet character, `none` outside the alphabet. -/
def b64val (c : Char) : Option Nat :=
  if 'A' ≤ c ∧ c ≤ 'Z' then some (c.toNat - 65)
  else if 'a' ≤ c ∧ c ≤ 'z' then some (c.toNat - 97 + 26)
  else if '0' ≤ c ∧ c ≤ '9' then some (c.toNat - 48 + 52)
  else if c = '+' then some 62
  else if c = '/' then some 63
  else none

/-- Characters `base64.b64decode` feeds to the decoder: alphabet characters
and padding; everything else is discarded before decoding. -/
def b64keep (c : Char) : Bool := (b64val c).isSome || c = '='

/-- Decode cleaned base64 text four characters at a time into bytes.  A final
quad may end in `=` or `==`; a leftover of one to three characters, padding
anywhere else, or data after a padded quad is an error (`binascii.Error`,
"incorrect padding" and friends). -/
def b64quads : List Char → Option (List Nat)
  | [] => some []
  | c1 :: c2 :: c3 :: c4 :: rest => do
    let v1 ← b64val c1
    let v2 ← b64val c2
    if c3 = '=' then
      if c4 = '=' ∧ rest = [] then some [v1 * 4 + v2 / 16] else none
    else do
      let v3 ← b64val c3
      if c4 = '=' then
        if rest = [] then some [v1 * 4 + v2 / 16, (v2 % 16) * 16 + v3 / 4] else none
      else do
        let v4 ← b64val c4
        let bs ← b64quads rest
        some ((v1 * 4 + v2 / 16) :: ((v2 % 16) * 16 + v3 / 4) :: ((v3 % 4) * 64 + v4) :: bs)
  | _ => none

/-- Python's `base64.b64decode` on a `str`: non-ASCII input fails the
implicit ASCII encoding (`ValueError`); otherwise non-alphabet characters are
discarded and the rest decoded as quads.  `none` stands for a raised error. -/
def b64decode (s : String) : Option (List Nat) :=
  if s.data.all (fun c => c.toNat ≤ 127) then b64quads (s.data.filter b64keep) else none

/-- One pass of a strict UTF-8 decoder: `need` continuation bytes are still
expected for the current code point, `acc` is its accumulated value, and the
next continuation byte must lie in `lo..hi` (this encodes the E0/ED/F0/F4
restrictions that rule out overlong forms, surrogates and values past
U+10FFFF, exactly the sequences `bytes.decode("utf-8")` rejects). -/
def utf8Aux : List Nat → Nat → Nat → Nat → Nat → Option (List Char)
  | [], need, _, _, _ => if need = 0 then some [] else none
  | b :: rest, need, acc, lo, hi =>
    if need = 0 then
      if b ≤ 0x7F then (utf8Aux rest 0 0 0 0).map (fun cs => Char.ofNat b :: cs)
      else if 0xC2 ≤ b ∧ b ≤ 0xDF then utf8Aux rest 1 (b - 0xC0) 0x80 0xBF
      else if b = 0xE0 then utf8Aux rest 2 0 0xA0 0xBF
      else if b = 0xED then utf8Aux rest 2 0xD 0x80 0x9F
      else if 0xE1 ≤ b ∧ b ≤ 0xEF then utf8Aux rest 2 (b - 0xE0) 0x80 0xBF
      else if b = 0xF0 then utf8Aux rest 3 0 0x90 0xBF
      else if b = 0xF4 then utf8Aux rest 3 4 0x80 0x8F
      else if 0xF1 ≤ b ∧ b ≤ 0xF3 then utf8Aux rest 3 (b - 0xF0) 0x80 0xBF
      else none
    else
      if lo ≤ b ∧ b ≤ hi then
        if need = 1 then
          (utf8Aux rest 0 0 0 0).map (fun cs => Char.ofNat (acc * 64 + (b - 0x80)) :: cs)
        else utf8Aux rest (need - 1) (acc * 64 + (b - 0x80)) 0x80 0xBF
      else none

/-- `bytes.decode("utf-8")`: `none` stands for a raised `UnicodeDecodeError`. -/
def utf8Decode (bytes : List Nat) : Option (List Char) := utf8Aux bytes 0 0 0 0

/-- Line 71's decoding pipeline,
`base64.b64decode(content).decode("utf-8")`: `none` when either step raises. -/
def decodeContent (raw : String) : Option String :=
  match b64decode raw with
  | none => none
  | some bytes =>
    match utf8Decode bytes with
    | none => none
    | some cs => some ⟨cs⟩

/-- Outcome of the export HTTP request: either the request layer raised a
`RequestException` (transport failure, or a non-2xx status via
`raise_for_status`), or a 2xx JSON body whose `content` field is absent or
holds its raw, not yet decoded, text. -/
inductive ExportOutcome where
  | transportError : ExportOutcome
  | okBody : Option String → ExportOutcome
  deriving DecidableEq, Repr

/-- `export_notebook` (lines 66-74).  A `RequestException` is caught and
turned into `None`; but the `except` clause is limited to
`requests.exceptions.RequestException`, so on a 2xx body line 71 can still
raise: a missing `content` field (`KeyError` from the subscript), invalid
base64 (`binascii.Error`), or decoded bytes that are not UTF-8
(`UnicodeDecodeError`) all escape and crash the caller. -/
def export_notebook : ExportOutcome → PyRes (Option String)
  | .transportError => .val none
  | .okBody none => .crash
  | .okBody (some raw) =>
    match decodeContent raw with
    | none => .crash
    | some s => .val (some s)

/-- An object returned by `workspace/list`.  Both fields may be absent in the
raw JSON; the orchestrator subscripts them with `nb["object_type"]` and
`nb["path"]`, which raises `KeyError` on an absent field. -/
structure ListedObj where
  path : Option String
  object_type : Option String
  deriving DecidableEq, Repr

/-- The parsed body of `workspace/get-status`; both fields read with `.get`. -/
structure ObjStatus where
  object_id : Option String
  object_type : Option String
  deriving DecidableEq, Repr

/-- Responses of one workspace's REST endpoint.  `none` in an outcome stands
for a `RequestException` (transport failure or non-2xx status): exactly the
errors the source converts to empty/null/false results. -/
structure WsOracle where
  listOutcome : Option (List ListedObj)
  exportOutcome : String → ExportOutcome
  statusOutcome : String → Option ObjStatus
  aclOutcome : String → Option (List AclItem)
  grantOk : String → Bool

/-- The full environment of one run: the Git clone exit status and the two
workspaces' response oracles. -/
structure Oracle where
  gitCloneOk : Bool
  source : WsOracle
  target : WsOracle

/-- One externally visible call issued by the run. -/
inductive Event where
  | gitClone : Event
  | listCall : Event
  | exportCall : String → Event
  | importCall : String → Event
  | getStatusCall : String → Event
  | permsGetCall : String → Event
  | grantCall : String → List AclGrant → Event
  deriving DecidableEq, Repr

/-- `list_notebooks` (lines 55-63): the `objects` array of the body, or `[]`
on a request error. -/
def listedObjs (ws : WsOracle) : List ListedObj :=
  match ws.listOutcome with
  | none => []
  | some xs => xs

/-- `get_permissions` (lines 105-142) as trace plus result: a failed or falsy
object-status lookup returns `None`; an unsupported object type returns
`None`; otherwise the permissions GET is issued and its ACL flattened. -/
def get_permissions_run (ws : WsOracle) (path : String) :
    List Event × Option (List (Option String × String)) :=
  match ws.statusOutcome path with
  | none => ([Event.getStatusCall path], none)
  | some st =>
    if st.object_type = some "NOTEBOOK" ∨ st.object_type = some "DIRECTORY" then
      match ws.aclOutcome path with
      | none => ([Event.getStatusCall path, Event.permsGetCall path], none)
      | some acl =>
        ([Event.getStatusCall path, Event.permsGetCall path], some (get_permissions_map acl))
    else ([Event.getStatusCall path], none)

/-- `grant_permissions` (lines 145-193) as trace plus success flag.  The
request body is `grant_acl`; the PATCH/PUT choice is `grant_method` and does
not change which call is issued, only its verb. -/
def grant_permissions_run (ws : WsOracle) (path : String) (email : Option String)
    (permission_level : String) (cluster_id : Option String) : List Event × Bool :=
  match ws.statusOutcome path with
  | none => ([Event.getStatusCall path], false)
  | some st =>
    if st.object_type = some "NOTEBOOK" ∨ st.object_type = some "DIRECTORY" then
      ([Event.getStatusCall path,
        Event.grantCall path (grant_acl email permission_level cluster_id)],
       ws.grantOk path)
    else ([Event.getStatusCall path], false)

/-- The inner permission-sync loop (line 232-233): one grant per entry of the
captured source permissions map. -/
def grantLoop (tgt : WsOracle) (p : String) (cid : Option String) :
    List (Option String × String) → List Event
  | [] => []
  | (user, lvl) :: rest =>
    (grant_permissions_run tgt p user lvl cid).1 ++ grantLoop tgt p cid rest

/-- The permission block guarded by `if source_permissions:` (lines 231-233):
a captured falsy (absent or empty) permissions map issues no grants. -/
def grantBlock (tgt : WsOracle) (p : String) (cid : Option String)
    (perms : Option (List (Option String × String))) : List Event :=
  match perms with
  | none => []
  | some m => if m.isEmpty then [] else grantLoop tgt p cid m

/-- The per-object loop of the orchestrator (lines 224-233).  Subscripting a
missing `object_type` or `path` field crashes; a non-`NOTEBOOK` object is
skipped entirely; an export returning `None` skips import and grants for that
object and continues; a crashing export aborts the run. -/
def syncLoop (src tgt : WsOracle) (perms : Option (List (Option String × String)))
    (cid : Option String) : List ListedObj → List Event × Bool
  | [] => ([], true)
  | nb :: rest =>
    match nb.object_type with
    | none => ([], false)
    | some t =>
      if t = "NOTEBOOK" then
        match nb.path with
        | none => ([], false)
        | some p =>
          match export_notebook (src.exportOutcome p) with
          | .crash => ([Event.exportCall p], false)
          | .val none =>
            let r := syncLoop src tgt perms cid rest
            (Event.exportCall p :: r.1, r.2)
          | .val (some _content) =>
            let r := syncLoop src tgt perms cid rest
            (Event.exportCall p :: Event.importCall p ::
              (grantBlock tgt p cid perms ++ r.1), r.2)
      else
        syncLoop src tgt perms cid rest

/-- `sync_notebooks_and_permissions` (lines 196-245) as trace plus completion
flag.  Unrecognized providers return with no calls; a truthy Git URL whose
clone fails returns right after the clone; otherwise the source permissions
snapshot, the listing, the per-object loop and (when the loop did not crash)
the target permissions snapshot run in sequence. -/
def sync_notebooks_and_permissions (env : Env) (oracle : Oracle)
    (source_cloud target_cloud : String) (git_url cluster_id : Option String)
    (notebook_dir : String) : List Event × Bool :=
  match get_workspace_config env source_cloud, get_workspace_config env target_cloud with
  | some _source_config, some _target_config =>
    if pyTruthy git_url && !oracle.gitCloneOk then ([Event.gitClone], true)
    else
      let gitEvs : List Event := if pyTruthy git_url then [Event.gitClone] else []
      let pres := get_permissions_run oracle.source notebook_dir
      let r := syncLoop oracle.source oracle.target pres.2 cluster_id (listedObjs oracle.source)
      if r.2 then
        let tres := get_permissions_run oracle.target notebook_dir
        (gitEvs ++ pres.1 ++ Event.listCall :: r.1 ++ tres.1, true)
      else
        (gitEvs ++ pres.1 ++ Event.listCall :: r.1, false)
  | _, _ => ([], true)

/-! ### Concrete data used in witnesses and the counterexample -/

/-- An environment in which every variable is set to `"v"`. -/
def envW : Env := fun _ => some "v"

/-- An environment in which no variable is set. -/
def envNone : Env := fun _ => none

/-- The ACL of the spec's flattening test: a nested entry, a flat entry, and
an entry with neither field. -/
def aclW : List AclItem :=
  [{ user_name := some "alice",
     all_permissions := some [{ permission_level := some "X" }], permission_level := none },
   { user_name := some "bob", all_permissions := none, permission_level := some "Y" },
   { user_name := some "carol", all_permissions := none, permission_level := none }]

/-- The second entry of `aclW`. -/
def itemBobW : AclItem :=
  { user_name := some "bob", all_permissions := none, permission_level := some "Y" }

/-- An earlier entry for principal `u`. -/
def preW : List AclItem :=
  [{ user_name := some "u", all_permissions := none, permission_level := some "A" }]

/-- A later entry for the same principal `u`. -/
def lastW : AclItem :=
  { user_name := some "u", all_permissions := none, permission_level := some "B" }

/-- An ACL entry with no `user_name` field. -/
def itemNoUserW : AclItem :=
  { user_name := none, all_permissions := none, permission_level := some "Z" }

/-- An ACL entry whose `all_permissions` field is present but empty. -/
def itemEmptyAllW : AclItem :=
  { user_name := some "u", all_permissions := some [], permission_level := some "L" }

/-- A listed notebook object. -/
def nbW : ListedObj := { path := some "/a", object_type := some "NOTEBOOK" }

/-- A listed directory object. -/
def dirW : ListedObj := { path := some "/d", object_type := some "DIRECTORY" }

/-- A workspace oracle whose export requests all fail at the transport layer. -/
def wsOkW : WsOracle :=
  { listOutcome := some [nbW],
    exportOutcome := fun _ => ExportOutcome.transportError,
    statusOutcome := fun _ => none,
    aclOutcome := fun _ => none,
    grantOk := fun _ => true }

/-- A run environment built from `wsOkW` with a successful Git clone. -/
def oracleOkW : Oracle := { gitCloneOk := true, source := wsOkW, target := wsOkW }

/-- A run environment in which the Git clone exits non-zero. -/
def oracleGitFailW : Oracle := { gitCloneOk := false, source := wsOkW, target := wsOkW }

/-- A workspace oracle whose export requests answer 2xx with a JSON body that
has no `content` field. -/
def wsCrashW : WsOracle :=
  { listOutcome := some [nbW],
    exportOutcome := fun _ => ExportOutcome.okBody none,
    statusOutcome := fun _ => none,
    aclOutcome := fun _ => none,
    grantOk := fun _ => true }

/-- A run environment built from `wsCrashW`. -/
def oracleCrashW : Oracle := { gitCloneOk := true, source := wsCrashW, target := wsCrashW }

/-- A workspace oracle whose export requests answer 2xx with a `content`
field that is not valid base64: `"A"` makes Python's decoder raise
`binascii.Error` (one data character over a multiple of four). -/
def wsBadB64W : WsOracle :=
  { listOutcome := some [nbW],
    exportOutcome := fun _ => ExportOutcome.okBody (some "A"),
    statusOutcome := fun _ => none,
    aclOutcome := fun _ => none,
    grantOk := fun _ => true }

/-- A run environment built from `wsBadB64W`. -/
def oracleBadB64W : Oracle := { gitCloneOk := true, source := wsBadB64W, target := wsBadB64W }

/-- A workspace oracle whose export requests answer 2xx with a `content`
field of valid base64 (`"//8="` → bytes `FF FF`) that is not UTF-8, so
`.decode("utf-8")` raises `UnicodeDecodeError`. -/
def wsBadUtf8W : WsOracle :=
  { listOutcome := some [nbW],
    exportOutcome := fun _ => ExportOutcome.okBody (some "//8="),
    statusOutcome := fun _ => none,
    aclOutcome := fun _ => none,
    grantOk := fun _ => true }

/-- A run environment built from `wsBadUtf8W`. -/
def oracleBadUtf8W : Oracle :=
  { gitCloneOk := true, source := wsBadUtf8W, target := wsBadUtf8W }

/-- A workspace oracle whose listing returns an object without an
`object_type` field, on which the loop's subscript raises `KeyError`. -/
def wsBadListW : WsOracle :=
  { listOutcome := some [{ path := some "/a", object_type := none }],
    exportOutcome := fun _ => ExportOutcome.transportError,
    statusOutcome := fun _ => none,
    aclOutcome := fun _ => none,
    grantOk := fun _ => true }

/-- A run environment built from `wsBadListW`. -/
def oracleBadListW : Oracle :=
  { gitCloneOk := true, source := wsBadListW, target := wsBadListW }

/-- A workspace oracle whose export requests answer 2xx with a `content`
field holding valid base64-encoded UTF-8 text (`"print(1)"`). -/
def wsGoodW : WsOracle :=
  { listOutcome := some [nbW],
    exportOutcome := fun _ => ExportOutcome.okBody (some "cHJpbnQoMSk="),
    statusOutcome := fun _ => none,
    aclOutcome := fun _ => none,
    grantOk := fun _ => true }

/-- A run environment built from `wsGoodW`. -/
def oracleGoodW : Oracle := { gitCloneOk := true, source := wsGoodW, target := wsGoodW }

/-! ### Permission-mapper lemmas -/

/-- Looking up in a dict after a Python-style insert. -/
theorem dictLookup_dictInsert (d : List (Option String × String)) (kk k : Option String)
    (v : String) :
    dictLookup (dictInsert d kk v) k = if kk = k then some v else dictLookup d k := by
  induction d with
  | nil => simp [dictInsert, dictLookup]
  | cons hd tl ih =>
    obtain ⟨k', v'⟩ := hd
    by_cases h1 : k' = kk
    · subst h1
      by_cases h2 : k' = k <;> simp [dictInsert, dictLookup, h2]
    · by_cases h2 : k' = k
      · subst h2
        have hk : ¬kk = k' := fun h => h1 h.symm
        simp [dictInsert, dictLookup, h1, hk]
      · simp [dictInsert, dictLookup, h1, h2, ih]

/-- The per-entry level computed by the code agrees with the spec's reading. -/
theorem itemLevel_eq_spec (item : AclItem) : itemLevel item = spec_entry_level item := by
  cases h : item.all_permissions with
  | none => simp [itemLevel, spec_entry_level, h]
  | some l => cases l <;> simp [itemLevel, spec_entry_level, h]

/-- Unfolding the `user_permissions` fold one lookup at a time. -/
theorem dictLookup_foldl (acl : List AclItem) (d : List (Option String × String))
    (k : Option String) :
    dictLookup (acl.foldl (fun d item => dictInsert d item.user_name (itemLevel item)) d) k =
      match spec_last_entry acl k with
      | some it => some (spec_entry_level it)
      | none => dictLookup d k := by
  induction acl generalizing d with
  | nil => simp [spec_last_entry]
  | cons it rest ih =>
    simp only [List.foldl_cons, spec_last_entry]
    rw [ih]
    cases h : spec_last_entry rest k with
    | some r => simp
    | none =>
      simp only [dictLookup_dictInsert]
      by_cases h2 : it.user_name = k <;> simp [h2, itemLevel_eq_spec]

/-- The flattened permissions mapping refines the spec's description: the
level of each principal is the spec-level of the last entry naming it. -/
theorem get_permissions_lookup (acl : List AclItem) (k : Option String) :
    dictLookup (get_permissions_map acl) k = spec_level_of acl k := by
  unfold get_permissions_map spec_level_of
  rw [dictLookup_foldl]
  cases h : spec_last_entry acl k <;> simp [dictLookup]

/-- A principal occurring in the ACL is found by `spec_last_entry`. -/
theorem spec_last_entry_isSome (acl : List AclItem) (item : AclItem) (k : Option String)
    (hmem : item ∈ acl) (hk : item.user_name = k) :
    (spec_last_entry acl k).isSome = true := by
  induction acl with
  | nil => cases hmem
  | cons it rest ih =>
    rcases List.mem_cons.mp hmem with h | h
    · subst h
      simp only [spec_last_entry]
      cases hr : spec_last_entry rest k <;> simp [hk]
    · have := ih h
      simp only [spec_last_entry]
      cases hr : spec_last_entry rest k with
      | none => rw [hr] at this; simp at this
      | some r => simp

/-- `spec_last_entry` over an appended list prefers the second part. -/
theorem spec_last_entry_append (l1 l2 : List AclItem) (k : Option String) :
    spec_last_entry (l1 ++ l2) k =
      match spec_last_entry l2 k with
      | some r => some r
      | none => spec_last_entry l1 k := by
  induction l1 with
  | nil => cases h : spec_last_entry l2 k <;> simp [spec_last_entry, h]
  | cons it rest ih =>
    simp only [List.cons_append, spec_last_entry, List.append_eq]
    rw [ih]
    cases h : spec_last_entry l2 k <;> cases h2 : spec_last_entry rest k <;> simp

/-- A list none of whose entries names `k` yields no last entry for `k`. -/
theorem spec_last_entry_eq_none (l : List AclItem) (k : Option String)
    (h : ∀ c ∈ l, c.user_name ≠ k) : spec_last_entry l k = none := by
  induction l with
  | nil => rfl
  | cons it rest ih =>
    have h1 : it.user_name ≠ k := h it (List.mem_cons_self it rest)
    have h2 : spec_last_entry rest k = none :=
      ih fun c hc => h c (List.mem_cons_of_mem it hc)
    simp [spec_last_entry, h2, h1]

/-! ### Claims about the permission mapper -/

/-- C2: for every raw access-control-list array, the flattened mapping keys
each entry by its `user_name` and assigns it the spec-described level — the
`permission_level` of the first element of a carried (non-empty)
`all_permissions` array, else the top-level `permission_level`, else the
literal string UNKNOWN — the level retained for a principal being that of its
last entry; in particular every entry's principal is present in the mapping. -/
theorem get_permissions_matches_spec (acl : List AclItem) :
    (∀ k, dictLookup (get_permissions_map acl) k = spec_level_of acl k) ∧
    (∀ item, item ∈ acl →
      (dictLookup (get_permissions_map acl) item.user_name).isSome = true) := by
  refine ⟨fun k => get_permissions_lookup acl k, fun item hmem => ?_⟩
  rw [get_permissions_lookup]
  unfold spec_level_of
  have := spec_last_entry_isSome acl item item.user_name hmem rfl
  cases h : spec_last_entry acl item.user_name with
  | none => rw [h] at this; simp at this
  | some r => simp

/-- Witness for C2, on the spec's own flattening test ACL. -/
theorem get_permissions_matches_spec_witness :
    dictLookup (get_permissions_map aclW) (some "bob") = some "Y" ∧
    dictLookup (get_permissions_map aclW) (some "alice") = some "X" ∧
    dictLookup (get_permissions_map aclW) (some "carol") = some "UNKNOWN" ∧
    (dictLookup (get_permissions_map aclW) itemBobW.user_name).isSome = true :=
  ⟨((get_permissions_matches_spec aclW).1 (some "bob")).trans (by decide),
   ((get_permissions_matches_spec aclW).1 (some "alice")).trans (by decide),
   ((get_permissions_matches_spec aclW).1 (some "carol")).trans (by decide),
   (get_permissions_matches_spec aclW).2 itemBobW (by decide)⟩

/-- C6: when an ACL contains two or more entries for the same principal, the
flattened mapping holds exactly the level derived from the last such entry in
list order (last-write-wins). -/
theorem permissions_last_write_wins (pre post : List AclItem) (b : AclItem)
    (hdup : ∃ a ∈ pre, a.user_name = b.user_name)
    (hlast : ∀ c ∈ post, c.user_name ≠ b.user_name) :
    dictLookup (get_permissions_map (pre ++ b :: post)) b.user_name = some (itemLevel b) := by
  rw [get_permissions_lookup]
  unfold spec_level_of
  rw [spec_last_entry_append]
  have hpost : spec_last_entry post b.user_name = none :=
    spec_last_entry_eq_none post b.user_name hlast
  have hb : spec_last_entry (b :: post) b.user_name = some b := by
    simp [spec_last_entry, hpost]
  rw [hb]
  simp [itemLevel_eq_spec]

/-- Witness for C6: two entries for principal `u`; the level of the later one
(`B`, from `lastW`) wins over the earlier one (`A`). -/
theorem permissions_last_write_wins_witness :
    dictLookup (get_permissions_map (preW ++ lastW :: [])) lastW.user_name =
      some (itemLevel lastW) :=
  permissions_last_write_wins preW [] lastW
    ⟨{ user_name := some "u", all_permissions := none, permission_level := some "A" },
     by decide, by decide⟩
    (by intro c hc; cases hc)

/-- C10: an ACL entry lacking a `user_name` field still produces a mapping
entry keyed by the absent principal, and an `all_permissions` field that is
present but an empty array falls back to the top-level `permission_level`
exactly as if `all_permissions` were absent. -/
theorem acl_missing_user_and_empty_all_permissions :
    (∀ (acl : List AclItem) (item : AclItem), item ∈ acl → item.user_name = none →
        (dictLookup (get_permissions_map acl) none).isSome = true) ∧
    (∀ item : AclItem, item.all_permissions = some [] →
        itemLevel item = itemLevel { item with all_permissions := none }) := by
  constructor
  · intro acl item hmem hname
    rw [get_permissions_lookup]
    unfold spec_level_of
    have := spec_last_entry_isSome acl item none hmem hname
    cases h : spec_last_entry acl none with
    | none => rw [h] at this; simp at this
    | some r => simp
  · intro item h
    simp [itemLevel, h]

/-- Witness for C10: a user-less entry is keyed by the absent principal, and
an empty `all_permissions` array falls back to the top-level level. -/
theorem acl_missing_user_and_empty_all_permissions_witness :
    (dictLookup (get_permissions_map [itemNoUserW]) none).isSome = true ∧
    itemLevel itemEmptyAllW = itemLevel { itemEmptyAllW with all_permissions := none } :=
  ⟨acl_missing_user_and_empty_all_permissions.1 [itemNoUserW] itemNoUserW (by decide) rfl,
   acl_missing_user_and_empty_all_permissions.2 itemEmptyAllW rfl⟩

/-! ### Substring and grant-method lemmas -/

/-- Correctness of the prefix test. -/
theorem charsIsPrefixOf_iff (pat : List Char) : ∀ s : List Char,
    charsIsPrefixOf pat s = true ↔ ∃ t, s = pat ++ t := by
  induction pat with
  | nil => intro s; simp [charsIsPrefixOf]
  | cons a as ih =>
    intro s
    cases s with
    | nil =>
      simp only [charsIsPrefixOf, List.cons_append]
      constructor
      · intro h; cases h
      · rintro ⟨t, h⟩; cases h
    | cons b bs =>
      simp only [charsIsPrefixOf, Bool.and_eq_true, decide_eq_true_eq, ih bs,
        List.cons_append]
      constructor
      · rintro ⟨rfl, t, rfl⟩; exact ⟨t, rfl⟩
      · rintro ⟨t, h⟩
        injection h with h1 h2
        exact ⟨h1.symm, t, h2⟩

/-- Correctness of the containment test: `charsContains pat s` holds exactly
when `s` decomposes around an occurrence of `pat`. -/
theorem charsContains_iff (pat : List Char) : ∀ s : List Char,
    charsContains pat s = true ↔ ∃ pre post, s = pre ++ pat ++ post := by
  intro s
  induction s with
  | nil =>
    simp only [charsContains, charsIsPrefixOf_iff]
    constructor
    · rintro ⟨t, h⟩
      exact ⟨[], t, by simpa using h⟩
    · rintro ⟨pre, post, h⟩
      rcases List.append_eq_nil.mp (List.append_eq_nil.mp h.symm).1 with ⟨-, h2⟩
      exact ⟨post, by simp [h2, (List.append_eq_nil.mp h.symm).2]⟩
  | cons c rest ih =>
    simp only [charsContains, Bool.or_eq_true, charsIsPrefixOf_iff, ih]
    constructor
    · rintro (⟨t, h⟩ | ⟨pre, post, h⟩)
      · exact ⟨[], t, by simp [h]⟩
      · exact ⟨c :: pre, post, by simp [h]⟩
    · rintro ⟨pre, post, h⟩
      cases pre with
      | nil => exact Or.inl ⟨post, by simpa using h⟩
      | cons d pre2 =>
        injection h with h1 h2
        exact Or.inr ⟨pre2, post, h2⟩

/-- `strContains` agrees with the spec-level decomposition reading. -/
theorem strContains_iff (s pat : String) :
    strContains s pat = true ↔ SpecContains s pat :=
  charsContains_iff pat.data s.data

/-- C5: the grant-permissions operation selects HTTP method PATCH exactly for
workspace URLs containing the substring `databricks.com`, and PUT for every
other URL. -/
theorem grant_method_selection (url : String) :
    (grant_method url = "PATCH" ↔ SpecContains url "databricks.com") ∧
    (grant_method url = "PUT" ↔ ¬SpecContains url "databricks.com") := by
  unfold grant_method
  by_cases hc : strContains url "databricks.com" = true
  · rw [if_pos hc]
    have hs := (strContains_iff url "databricks.com").mp hc
    constructor
    · exact ⟨fun _ => hs, fun _ => rfl⟩
    · constructor
      · intro h; exact absurd h (by decide)
      · intro h; exact absurd hs h
  · rw [if_neg hc]
    have hs : ¬SpecContains url "databricks.com" := fun h =>
      hc ((strContains_iff url "databricks.com").mpr h)
    constructor
    · constructor
      · intro h; exact absurd h (by decide)
      · intro h; exact absurd h hs
    · exact ⟨fun _ => hs, fun _ => rfl⟩

/-- Witness for C5: one URL of each shape. -/
theorem grant_method_selection_witness :
    grant_method "https://adb-1.azuredatabricks.net" = "PUT" ∧
    grant_method "https://dbc-x.cloud.databricks.com" = "PATCH" :=
  ⟨by decide,
   (grant_method_selection "https://dbc-x.cloud.databricks.com").1.mpr
     ⟨"https://dbc-x.cloud.".data, [], by decide⟩⟩

/-- Python truthiness of an optional string, in spec terms. -/
theorem pyTruthy_iff (o : Option String) :
    pyTruthy o = true ↔ ∃ c, o = some c ∧ c ≠ "" := by
  cases o with
  | none => simp [pyTruthy]
  | some s => simp [pyTruthy]

/-- C7: the grant request body always contains the `{principal, level}` entry,
contains an additional CAN_ATTACH_TO entry for the same principal carrying the
cluster id exactly when a non-empty cluster id is supplied, and carries no
cluster-scoped entry at all when the cluster id is absent or empty. -/
theorem grant_body_cluster_entry (email : Option String) (lvl : String)
    (cid : Option String) :
    ({ user_name := email, permission_level := lvl, cluster_id := none } : AclGrant) ∈
        grant_acl email lvl cid ∧
    ((∃ c, cid = some c ∧ c ≠ "") →
        ({ user_name := email, permission_level := "CAN_ATTACH_TO",
           cluster_id := cid } : AclGrant) ∈ grant_acl email lvl cid) ∧
    ((∀ c, cid = some c → c = "") → ∀ g ∈ grant_acl email lvl cid, g.cluster_id = none) := by
  refine ⟨?_, ?_, ?_⟩
  · unfold grant_acl
    by_cases h : pyTruthy cid = true <;> simp [h]
  · intro h
    have ht : pyTruthy cid = true := (pyTruthy_iff cid).mpr h
    simp [grant_acl, ht]
  · intro h g hg
    have ht : pyTruthy cid = false := by
      cases hb : pyTruthy cid
      · rfl
      · obtain ⟨c, hc, hne⟩ := (pyTruthy_iff cid).mp hb
        exact absurd (h c hc) hne
    simp only [grant_acl, ht] at hg
    simp at hg
    subst hg
    rfl

/-- Witness for C7: a non-empty cluster id yields the attach entry; an empty
one yields a body with no cluster-scoped entry. -/
theorem grant_body_cluster_entry_witness :
    ({ user_name := some "alice", permission_level := "CAN_MANAGE",
       cluster_id := none } : AclGrant) ∈
        grant_acl (some "alice") "CAN_MANAGE" (some "c-1") ∧
    ({ user_name := some "alice", permission_level := "CAN_ATTACH_TO",
       cluster_id := some "c-1" } : AclGrant) ∈
        grant_acl (some "alice") "CAN_MANAGE" (some "c-1") ∧
    (∀ g ∈ grant_acl (some "alice") "CAN_MANAGE" (some ""), g.cluster_id = none) :=
  ⟨(grant_body_cluster_entry (some "alice") "CAN_MANAGE" (some "c-1")).1,
   (grant_body_cluster_entry (some "alice") "CAN_MANAGE" (some "c-1")).2.1
     ⟨"c-1", rfl, by decide⟩,
   (grant_body_cluster_entry (some "alice") "CAN_MANAGE" (some "")).2.2
     (by intro c hc; injection hc with h; exact h.symm)⟩

/-! ### Orchestrator trace lemmas -/

/-- `export_notebook` crashes only on a 2xx body whose `content` field is
absent or fails the base64/UTF-8 decoding pipeline. -/
theorem export_notebook_crash_cases (o : ExportOutcome)
    (h : export_notebook o = PyRes.crash) :
    o = ExportOutcome.okBody none ∨
    ∃ raw, o = ExportOutcome.okBody (some raw) ∧ decodeContent raw = none := by
  cases o with
  | transportError => simp [export_notebook] at h
  | okBody c =>
    cases c with
    | none => exact Or.inl rfl
    | some raw =>
      refine Or.inr ⟨raw, rfl, ?_⟩
      cases hd : decodeContent raw with
      | none => rfl
      | some s => simp [export_notebook, hd] at h

/-- `export_notebook` returns content only on a 2xx body carrying a `content`
field. -/
theorem export_notebook_val_some (o : ExportOutcome) (s : String)
    (h : export_notebook o = PyRes.val (some s)) :
    ∃ raw, o = ExportOutcome.okBody (some raw) := by
  cases o with
  | transportError => simp [export_notebook] at h
  | okBody c =>
    cases c with
    | none => simp [export_notebook] at h
    | some raw => exact ⟨raw, rfl⟩

/-- A grant issues only a get-status call and possibly the grant call itself:
never an export or an import. -/
theorem grant_run_no_export_import (tgt : WsOracle) (q : String) (user : Option String)
    (lvl : String) (cid : Option String) (p : String) :
    Event.importCall p ∉ (grant_permissions_run tgt q user lvl cid).1 ∧
    Event.exportCall p ∉ (grant_permissions_run tgt q user lvl cid).1 := by
  cases hs : tgt.statusOutcome q with
  | none => simp [grant_permissions_run, hs]
  | some st =>
    by_cases ht : st.object_type = some "NOTEBOOK" ∨ st.object_type = some "DIRECTORY" <;>
      simp [grant_permissions_run, hs, ht]

/-- The permission-sync inner loop issues no export and no import calls. -/
theorem grantLoop_no_export_import (tgt : WsOracle) (q : String) (cid : Option String)
    (m : List (Option String × String)) (p : String) :
    Event.importCall p ∉ grantLoop tgt q cid m ∧
    Event.exportCall p ∉ grantLoop tgt q cid m := by
  induction m with
  | nil => simp [grantLoop]
  | cons hd tl ih =>
    obtain ⟨user, lvl⟩ := hd
    have h1 := grant_run_no_export_import tgt q user lvl cid p
    simp only [grantLoop, List.mem_append]
    exact ⟨fun h => h.elim h1.1 ih.1, fun h => h.elim h1.2 ih.2⟩

/-- A permissions snapshot issues only get-status and permissions GET calls:
never an export or an import. -/
theorem get_permissions_run_no_export_import (ws : WsOracle) (dir p : String) :
    Event.importCall p ∉ (get_permissions_run ws dir).1 ∧
    Event.exportCall p ∉ (get_permissions_run ws dir).1 := by
  cases hs : ws.statusOutcome dir with
  | none => simp [get_permissions_run, hs]
  | some st =>
    by_cases ht : st.object_type = some "NOTEBOOK" ∨ st.object_type = some "DIRECTORY"
    · cases ha : ws.aclOutcome dir <;> simp [get_permissions_run, hs, ht, ha]
    · simp [get_permissions_run, hs, ht]

/-- Events of the guarded permission block come from a captured non-falsy
permissions map's grant loop. -/
theorem grantBlock_mem (tgt : WsOracle) (q : String) (cid : Option String)
    (perms : Option (List (Option String × String))) (e : Event)
    (h : e ∈ grantBlock tgt q cid perms) :
    ∃ m, perms = some m ∧ e ∈ grantLoop tgt q cid m := by
  cases hperm : perms with
  | none =>
    rw [hperm] at h
    simp [grantBlock] at h
  | some m =>
    rw [hperm] at h
    by_cases hme : m.isEmpty
    · simp [grantBlock, hme] at h
    · simp only [grantBlock, hme, if_neg] at h
      rw [if_neg (by simp [hme])] at h
      exact ⟨m, rfl, h⟩

/-- Every event of the per-object loop's trace comes from a listed NOTEBOOK
object: it is that object's export call, its import call (possible only when
the export answered 2xx with content), or one of its grant-loop calls. -/
theorem syncLoop_trace_mem (src tgt : WsOracle)
    (perms : Option (List (Option String × String))) (cid : Option String)
    (objs : List ListedObj) (e : Event)
    (he : e ∈ (syncLoop src tgt perms cid objs).1) :
    ∃ nb q, nb ∈ objs ∧ nb.object_type = some "NOTEBOOK" ∧ nb.path = some q ∧
      (e = Event.exportCall q ∨
       (e = Event.importCall q ∧ ∃ c, src.exportOutcome q = ExportOutcome.okBody (some c)) ∨
       ∃ m, perms = some m ∧ e ∈ grantLoop tgt q cid m) := by
  induction objs with
  | nil => simp [syncLoop] at he
  | cons nb rest ih =>
    cases hot : nb.object_type with
    | none =>
      have hz : syncLoop src tgt perms cid (nb :: rest) = ([], false) := by
        simp [syncLoop, hot]
      rw [hz] at he
      cases he
    | some t =>
      by_cases ht : t = "NOTEBOOK"
      · subst ht
        cases hp : nb.path with
        | none =>
          have hz : syncLoop src tgt perms cid (nb :: rest) = ([], false) := by
            simp [syncLoop, hot, hp]
          rw [hz] at he
          cases he
        | some q =>
          cases he2 : export_notebook (src.exportOutcome q) with
          | crash =>
            have hz : syncLoop src tgt perms cid (nb :: rest)
                = ([Event.exportCall q], false) := by
              simp [syncLoop, hot, hp, he2]
            rw [hz] at he
            have := List.mem_singleton.mp he
            subst this
            exact ⟨nb, q, List.mem_cons_self nb rest, hot, hp, Or.inl rfl⟩
          | val c =>
            cases c with
            | none =>
              have hz : syncLoop src tgt perms cid (nb :: rest)
                  = (Event.exportCall q :: (syncLoop src tgt perms cid rest).1,
                     (syncLoop src tgt perms cid rest).2) := by
                simp [syncLoop, hot, hp, he2]
              rw [hz] at he
              rcases List.mem_cons.mp he with rfl | hmem
              · exact ⟨nb, q, List.mem_cons_self nb rest, hot, hp, Or.inl rfl⟩
              · obtain ⟨nb2, q2, hm, h1, h2, h3⟩ := ih hmem
                exact ⟨nb2, q2, List.mem_cons_of_mem nb hm, h1, h2, h3⟩
            | some content =>
              have hz : syncLoop src tgt perms cid (nb :: rest)
                  = (Event.exportCall q :: Event.importCall q ::
                      (grantBlock tgt q cid perms ++ (syncLoop src tgt perms cid rest).1),
                     (syncLoop src tgt perms cid rest).2) := by
                simp [syncLoop, hot, hp, he2]
              rw [hz] at he
              rcases List.mem_cons.mp he with rfl | he3
              · exact ⟨nb, q, List.mem_cons_self nb rest, hot, hp, Or.inl rfl⟩
              rcases List.mem_cons.mp he3 with rfl | he4
              · exact ⟨nb, q, List.mem_cons_self nb rest, hot, hp,
                  Or.inr (Or.inl ⟨rfl, export_notebook_val_some _ _ he2⟩)⟩
              rcases List.mem_append.mp he4 with he5 | he6
              · obtain ⟨m, hperm, he7⟩ := grantBlock_mem tgt q cid perms e he5
                exact ⟨nb, q, List.mem_cons_self nb rest, hot, hp,
                  Or.inr (Or.inr ⟨m, hperm, he7⟩)⟩
              · obtain ⟨nb2, q2, hm, h1, h2, h3⟩ := ih he6
                exact ⟨nb2, q2, List.mem_cons_of_mem nb hm, h1, h2, h3⟩
      · have hz : syncLoop src tgt perms cid (nb :: rest) = syncLoop src tgt perms cid rest := by
          simp [syncLoop, hot, ht]
        rw [hz] at he
        obtain ⟨nb2, q2, hm, h1, h2, h3⟩ := ih he
        exact ⟨nb2, q2, List.mem_cons_of_mem nb hm, h1, h2, h3⟩

/-- An import call for `p` in the per-object loop's trace forces the source
export for `p` to have answered 2xx with content. -/
theorem syncLoop_import_needs_export (src tgt : WsOracle)
    (perms : Option (List (Option String × String))) (cid : Option String)
    (objs : List ListedObj) (p : String)
    (h : Event.importCall p ∈ (syncLoop src tgt perms cid objs).1) :
    ∃ c, src.exportOutcome p = ExportOutcome.okBody (some c) := by
  obtain ⟨nb, q, _, _, _, hcase⟩ := syncLoop_trace_mem src tgt perms cid objs _ h
  rcases hcase with h1 | ⟨h1, c, hc⟩ | ⟨m, _, h1⟩
  · simp at h1
  · injection h1 with hq
    subst hq
    exact ⟨c, hc⟩
  · exact absurd h1 (grantLoop_no_export_import tgt q cid m p).1

/-- An export or import call for `p` in the per-object loop's trace comes from
a listed object of type NOTEBOOK with path `p`. -/
theorem syncLoop_export_import_from_listing (src tgt : WsOracle)
    (perms : Option (List (Option String × String))) (cid : Option String)
    (objs : List ListedObj) (p : String)
    (h : Event.exportCall p ∈ (syncLoop src tgt perms cid objs).1 ∨
         Event.importCall p ∈ (syncLoop src tgt perms cid objs).1) :
    ∃ nb, nb ∈ objs ∧ nb.object_type = some "NOTEBOOK" ∧ nb.path = some p := by
  rcases h with h | h
  · obtain ⟨nb, q, hm, hty, hp2, hcase⟩ := syncLoop_trace_mem src tgt perms cid objs _ h
    rcases hcase with h1 | ⟨h1, -⟩ | ⟨m, -, h1⟩
    · injection h1 with hq
      subst hq
      exact ⟨nb, hm, hty, hp2⟩
    · simp at h1
    · exact absurd h1 (grantLoop_no_export_import tgt q cid m p).2
  · obtain ⟨nb, q, hm, hty, hp2, hcase⟩ := syncLoop_trace_mem src tgt perms cid objs _ h
    rcases hcase with h1 | ⟨h1, -⟩ | ⟨m, -, h1⟩
    · simp at h1
    · injection h1 with hq
      subst hq
      exact ⟨nb, hm, hty, hp2⟩
    · exact absurd h1 (grantLoop_no_export_import tgt q cid m p).1

/-- The per-object loop completes when every listed object carries both fields
and no successful export body lacks its `content` field. -/
theorem syncLoop_completes (src tgt : WsOracle)
    (perms : Option (List (Option String × String))) (cid : Option String)
    (objs : List ListedObj)
    (hlist : ∀ nb ∈ objs, nb.path.isSome = true ∧ nb.object_type.isSome = true)
    (hexp : ∀ p raw, src.exportOutcome p = ExportOutcome.okBody raw →
        ∃ r, raw = some r ∧ (decodeContent r).isSome = true) :
    (syncLoop src tgt perms cid objs).2 = true := by
  induction objs with
  | nil => rfl
  | cons nb rest ih =>
    have hnb := hlist nb (List.mem_cons_self nb rest)
    have hrest : ∀ nb2 ∈ rest, nb2.path.isSome = true ∧ nb2.object_type.isSome = true :=
      fun nb2 h2 => hlist nb2 (List.mem_cons_of_mem nb h2)
    obtain ⟨q, hq⟩ := Option.isSome_iff_exists.mp hnb.1
    obtain ⟨t, ht⟩ := Option.isSome_iff_exists.mp hnb.2
    by_cases hteq : t = "NOTEBOOK"
    · subst hteq
      cases he : export_notebook (src.exportOutcome q) with
      | crash =>
        rcases export_notebook_crash_cases _ he with h | ⟨raw, h, hdec⟩
        · obtain ⟨r, hr, -⟩ := hexp q none h
          cases hr
        · obtain ⟨r, hr, his⟩ := hexp q (some raw) h
          injection hr with hr2
          subst hr2
          rw [hdec] at his
          simp at his
      | val c =>
        cases c with
        | none =>
          have hz : (syncLoop src tgt perms cid (nb :: rest)).2
              = (syncLoop src tgt perms cid rest).2 := by
            simp [syncLoop, ht, hq, he]
          rw [hz]
          exact ih hrest
        | some content =>
          have hz : (syncLoop src tgt perms cid (nb :: rest)).2
              = (syncLoop src tgt perms cid rest).2 := by
            simp [syncLoop, ht, hq, he]
          rw [hz]
          exact ih hrest
    · have hz : syncLoop src tgt perms cid (nb :: rest) = syncLoop src tgt perms cid rest := by
        simp [syncLoop, ht, hq, hteq]
      rw [hz]
      exact ih hrest

/-- A member of the optional Git-clone event list is the clone event. -/
theorem mem_gitEvs (git : Option String) (e : Event)
    (h : e ∈ (if pyTruthy git then [Event.gitClone] else [])) : e = Event.gitClone := by
  by_cases hg : pyTruthy git
  · rw [if_pos hg] at h
    exact List.mem_singleton.mp h
  · rw [if_neg hg] at h
    cases h

/-- Any event of a run's trace is the Git clone, the listing call, an event of
one of the two permissions snapshots, or an event of the per-object loop. -/
theorem sync_trace_sub (env : Env) (oracle : Oracle) (sc tc : String)
    (git cid : Option String) (dir : String) (e : Event)
    (he : e ∈ (sync_notebooks_and_permissions env oracle sc tc git cid dir).1) :
    e = Event.gitClone ∨ e = Event.listCall ∨
    e ∈ (get_permissions_run oracle.source dir).1 ∨
    e ∈ (get_permissions_run oracle.target dir).1 ∨
    e ∈ (syncLoop oracle.source oracle.target (get_permissions_run oracle.source dir).2 cid
          (listedObjs oracle.source)).1 := by
  cases hs : get_workspace_config env sc with
  | none =>
    have hz : sync_notebooks_and_permissions env oracle sc tc git cid dir = ([], true) := by
      cases ht : get_workspace_config env tc <;>
        simp [sync_notebooks_and_permissions, hs, ht]
    rw [hz] at he
    cases he
  | some scfg =>
    cases ht : get_workspace_config env tc with
    | none =>
      have hz : sync_notebooks_and_permissions env oracle sc tc git cid dir = ([], true) := by
        simp [sync_notebooks_and_permissions, hs, ht]
      rw [hz] at he
      cases he
    | some tcfg =>
      by_cases hgb : (pyTruthy git && !oracle.gitCloneOk) = true
      · have hz : sync_notebooks_and_permissions env oracle sc tc git cid dir
            = ([Event.gitClone], true) := by
          simp [sync_notebooks_and_permissions, hs, ht, hgb]
        rw [hz] at he
        exact Or.inl (List.mem_singleton.mp he)
      · have hgb2 : (pyTruthy git && !oracle.gitCloneOk) = false := by
          cases h2 : pyTruthy git && !oracle.gitCloneOk
          · rfl
          · exact absurd h2 hgb
        have h1 := mem_gitEvs git e
        by_cases hr : (syncLoop oracle.source oracle.target
            (get_permissions_run oracle.source dir).2 cid (listedObjs oracle.source)).2 = true
        · have hz : sync_notebooks_and_permissions env oracle sc tc git cid dir
              = ((if pyTruthy git then [Event.gitClone] else []) ++
                 (get_permissions_run oracle.source dir).1 ++
                 Event.listCall :: (syncLoop oracle.source oracle.target
                    (get_permissions_run oracle.source dir).2 cid
                    (listedObjs oracle.source)).1 ++
                 (get_permissions_run oracle.target dir).1, true) := by
            simp [sync_notebooks_and_permissions, hs, ht, hgb2, hr]
          rw [hz] at he
          simp only [List.mem_append, List.mem_cons] at he
          tauto
        · have hr2 : (syncLoop oracle.source oracle.target
              (get_permissions_run oracle.source dir).2 cid (listedObjs oracle.source)).2
              = false := by
            cases h2 : (syncLoop oracle.source oracle.target
                (get_permissions_run oracle.source dir).2 cid (listedObjs oracle.source)).2
            · rfl
            · exact absurd h2 hr
          have hz : sync_notebooks_and_permissions env oracle sc tc git cid dir
              = ((if pyTruthy git then [Event.gitClone] else []) ++
                 (get_permissions_run oracle.source dir).1 ++
                 Event.listCall :: (syncLoop oracle.source oracle.target
                    (get_permissions_run oracle.source dir).2 cid
                    (listedObjs oracle.source)).1, false) := by
            simp [sync_notebooks_and_permissions, hs, ht, hgb2, hr2]
          rw [hz] at he
          simp only [List.mem_append, List.mem_cons] at he
          tauto

/-! ### Claims about the orchestrator -/

/-- C1: a listed NOTEBOOK object whose export fails (returns no content, the
transport-error outcome) is never imported — no import call for its path
appears anywhere in the run's trace — and the loop continues with the
remaining listed objects instead of aborting. -/
theorem export_failure_skips_import (env : Env) (oracle : Oracle) (sc tc : String)
    (git cid : Option String) (dir p : String)
    (hexp : oracle.source.exportOutcome p = ExportOutcome.transportError) :
    Event.importCall p ∉ (sync_notebooks_and_permissions env oracle sc tc git cid dir).1 ∧
    ∀ (perms : Option (List (Option String × String))) (nb : ListedObj)
      (rest : List ListedObj),
      nb.object_type = some "NOTEBOOK" → nb.path = some p →
      syncLoop oracle.source oracle.target perms cid (nb :: rest) =
        (Event.exportCall p :: (syncLoop oracle.source oracle.target perms cid rest).1,
         (syncLoop oracle.source oracle.target perms cid rest).2) := by
  constructor
  · intro hmem
    rcases sync_trace_sub env oracle sc tc git cid dir _ hmem with h | h | h | h | h
    · cases h
    · cases h
    · exact (get_permissions_run_no_export_import oracle.source dir p).1 h
    · exact (get_permissions_run_no_export_import oracle.target dir p).1 h
    · obtain ⟨c, hc⟩ := syncLoop_import_needs_export _ _ _ _ _ _ h
      rw [hexp] at hc
      cases hc
  · intro perms nb rest hty hp
    have he : export_notebook (oracle.source.exportOutcome p) = PyRes.val none := by
      rw [hexp]
      rfl
    simp [syncLoop, hty, hp, he]

/-- Witness for C1: with every source export failing at the transport layer,
the run never imports `/a`. -/
theorem export_failure_skips_import_witness :
    Event.importCall "/a" ∉
      (sync_notebooks_and_permissions envW oracleOkW "AWS" "AZURE" none none "/dir").1 :=
  (export_failure_skips_import envW oracleOkW "AWS" "AZURE" none none "/dir" "/a" rfl).1

/-- Counterexample to C3 as stated: with the configuration and Git steps
passed, each of these runs dies on an uncaught exception instead of running
to completion — an export body without a `content` field (KeyError), one
whose `content` is invalid base64 (`"A"`, binascii.Error), one whose
`content` decodes to non-UTF-8 bytes (`"//8="`, UnicodeDecodeError), and a
listing whose object has no `object_type` field (KeyError). -/
theorem malformed_export_body_crashes_run :
    (sync_notebooks_and_permissions envW oracleCrashW "AWS" "AZURE" none none "/dir").2
      = false ∧
    (sync_notebooks_and_permissions envW oracleBadB64W "AWS" "AZURE" none none "/dir").2
      = false ∧
    (sync_notebooks_and_permissions envW oracleBadUtf8W "AWS" "AZURE" none none "/dir").2
      = false ∧
    (sync_notebooks_and_permissions envW oracleBadListW "AWS" "AZURE" none none "/dir").2
      = false :=
  ⟨by decide, by decide, by decide, by decide⟩

/-- C3 as amended: once past configuration resolution and Git seeding, every
transport or non-2xx error is converted into an empty/null/false result and
the run completes — provided every listed object carries its `path` and
`object_type` fields and every 2xx export response body carries a `content`
field holding valid base64-encoded UTF-8 text. -/
theorem no_crash_on_wellformed_bodies (env : Env) (oracle : Oracle) (sc tc : String)
    (git cid : Option String) (dir : String)
    (hlist : ∀ nb ∈ listedObjs oracle.source,
        nb.path.isSome = true ∧ nb.object_type.isSome = true)
    (hexp : ∀ p raw, oracle.source.exportOutcome p = ExportOutcome.okBody raw →
        ∃ r, raw = some r ∧ (decodeContent r).isSome = true) :
    (sync_notebooks_and_permissions env oracle sc tc git cid dir).2 = true := by
  cases hs : get_workspace_config env sc with
  | none =>
    cases ht : get_workspace_config env tc <;>
      simp [sync_notebooks_and_permissions, hs, ht]
  | some scfg =>
    cases ht : get_workspace_config env tc with
    | none => simp [sync_notebooks_and_permissions, hs, ht]
    | some tcfg =>
      by_cases hgb : (pyTruthy git && !oracle.gitCloneOk) = true
      · simp [sync_notebooks_and_permissions, hs, ht, hgb]
      · have hgb2 : (pyTruthy git && !oracle.gitCloneOk) = false := by
          cases h2 : pyTruthy git && !oracle.gitCloneOk
          · rfl
          · exact absurd h2 hgb
        have hloop := syncLoop_completes oracle.source oracle.target
          (get_permissions_run oracle.source dir).2 cid (listedObjs oracle.source) hlist hexp
        simp [sync_notebooks_and_permissions, hs, ht, hgb2, hloop]

/-- Witness for the amended C3: a run whose export bodies carry valid
base64-encoded UTF-8 content over a well-formed listing completes. -/
theorem no_crash_on_wellformed_bodies_witness :
    (sync_notebooks_and_permissions envW oracleGoodW "AWS" "AZURE" none none "/dir").2
      = true :=
  no_crash_on_wellformed_bodies envW oracleGoodW "AWS" "AZURE" none none "/dir"
    (by decide)
    (by
      intro p raw h
      injection h with h2
      exact ⟨"cHJpbnQoMSk=", h2.symm, by decide⟩)

/-- C4: with both providers recognized, a supplied (truthy) Git URL whose
clone exits non-zero makes the orchestrator return immediately: the whole
trace is the clone invocation, with no workspace API call of any kind. -/
theorem git_clone_failure_aborts (env : Env) (oracle : Oracle) (sc tc : String)
    (git cid : Option String) (dir : String)
    (hs : (get_workspace_config env sc).isSome = true)
    (ht : (get_workspace_config env tc).isSome = true)
    (hgit : pyTruthy git = true) (hclone : oracle.gitCloneOk = false) :
    sync_notebooks_and_permissions env oracle sc tc git cid dir
      = ([Event.gitClone], true) := by
  obtain ⟨scfg, hscfg⟩ := Option.isSome_iff_exists.mp hs
  obtain ⟨tcfg, htcfg⟩ := Option.isSome_iff_exists.mp ht
  simp [sync_notebooks_and_permissions, hscfg, htcfg, hgit, hclone]

/-- Witness for C4: a concrete failing clone yields the clone-only trace. -/
theorem git_clone_failure_aborts_witness :
    sync_notebooks_and_permissions envW oracleGitFailW "AWS" "AZURE"
      (some "https://github.com/example/repo.git") none "/dir" = ([Event.gitClone], true) :=
  git_clone_failure_aborts envW oracleGitFailW "AWS" "AZURE"
    (some "https://github.com/example/repo.git") none "/dir"
    (by decide) (by decide) (by decide) rfl

/-- C8: configuration resolution returns the matching provider's `{url,token}`
pair for any name matching AWS/AZURE/GCP case-insensitively, whatever the
environment holds; it returns `none` for every other name, and the
orchestrator then returns with an empty trace (no side effects). -/
theorem workspace_config_resolution (env : Env) (name : String) :
    (pyUpper name = "AWS" → get_workspace_config env name =
        some { url := env "AWS_WORKSPACE_URL", token := env "AWS_ACCESS_TOKEN" }) ∧
    (pyUpper name = "AZURE" → get_workspace_config env name =
        some { url := env "AZURE_WORKSPACE_URL", token := env "AZURE_ACCESS_TOKEN" }) ∧
    (pyUpper name = "GCP" → get_workspace_config env name =
        some { url := env "GCP_WORKSPACE_URL", token := env "GCP_ACCESS_TOKEN" }) ∧
    (pyUpper name ≠ "AWS" → pyUpper name ≠ "AZURE" → pyUpper name ≠ "GCP" →
        get_workspace_config env name = none) ∧
    (∀ (oracle : Oracle) (tc : String) (git cid : Option String) (dir : String),
        get_workspace_config env name = none →
        sync_notebooks_and_permissions env oracle name tc git cid dir = ([], true)) ∧
    (∀ (oracle : Oracle) (sc : String) (git cid : Option String) (dir : String),
        get_workspace_config env name = none →
        sync_notebooks_and_permissions env oracle sc name git cid dir = ([], true)) := by
  refine ⟨?_, ?_, ?_, ?_, ?_, ?_⟩
  · intro h
    simp [get_workspace_config, WORKSPACE_CONFIG, configLookup, h]
  · intro h
    simp [get_workspace_config, WORKSPACE_CONFIG, configLookup, h]
  · intro h
    simp [get_workspace_config, WORKSPACE_CONFIG, configLookup, h]
  · intro h1 h2 h3
    simp [get_workspace_config, WORKSPACE_CONFIG, configLookup,
      Ne.symm h1, Ne.symm h2, Ne.symm h3]
  · intro oracle tc git cid dir h
    cases ht2 : get_workspace_config env tc <;>
      simp [sync_notebooks_and_permissions, h, ht2]
  · intro oracle sc git cid dir h
    cases hs2 : get_workspace_config env sc <;>
      simp [sync_notebooks_and_permissions, h, hs2]

/-- Witness for C8: a lowercase known provider resolves even with an empty
environment; an unknown provider resolves to `none` and the orchestrator
returns with an empty trace. -/
theorem workspace_config_resolution_witness :
    get_workspace_config envNone "aws" = some { url := none, token := none } ∧
    get_workspace_config envW "Ec2" = none ∧
    sync_notebooks_and_permissions envW oracleOkW "Ec2" "AZURE" none none "/dir"
      = ([], true) :=
  ⟨(workspace_config_resolution envNone "aws").1 (by decide),
   (workspace_config_resolution envW "Ec2").2.2.2.1 (by decide) (by decide) (by decide),
   (workspace_config_resolution envW "Ec2").2.2.2.2.1 oracleOkW "AZURE" none none "/dir"
     ((workspace_config_resolution envW "Ec2").2.2.2.1 (by decide) (by decide) (by decide))⟩

/-- C9: the per-object loop invokes export and import only for listed objects
of type NOTEBOOK; an object of any other type (directories included)
contributes nothing to the run — no export, no import, no recursive descent —
and every export or import call in the whole trace belongs to a listed
NOTEBOOK object's path. -/
theorem only_notebooks_synced (env : Env) (oracle : Oracle) (sc tc : String)
    (git cid : Option String) (dir : String) :
    (∀ (src tgt : WsOracle) (perms : Option (List (Option String × String)))
        (cid2 : Option String) (nb : ListedObj) (rest : List ListedObj) (t : String),
        nb.object_type = some t → t ≠ "NOTEBOOK" →
        syncLoop src tgt perms cid2 (nb :: rest) = syncLoop src tgt perms cid2 rest) ∧
    (∀ p : String,
        (Event.exportCall p ∈ (sync_notebooks_and_permissions env oracle sc tc git cid dir).1 ∨
         Event.importCall p ∈ (sync_notebooks_and_permissions env oracle sc tc git cid dir).1) →
        ∃ nb, nb ∈ listedObjs oracle.source ∧ nb.object_type = some "NOTEBOOK" ∧
          nb.path = some p) := by
  constructor
  · intro src tgt perms cid2 nb rest t hty hne
    simp [syncLoop, hty, hne]
  · intro p hp
    have hp2 : Event.exportCall p ∈ (syncLoop oracle.source oracle.target
          (get_permissions_run oracle.source dir).2 cid (listedObjs oracle.source)).1 ∨
        Event.importCall p ∈ (syncLoop oracle.source oracle.target
          (get_permissions_run oracle.source dir).2 cid (listedObjs oracle.source)).1 := by
      rcases hp with h | h
      · rcases sync_trace_sub env oracle sc tc git cid dir _ h with h1 | h1 | h1 | h1 | h1
        · cases h1
        · cases h1
        · exact absurd h1 (get_permissions_run_no_export_import oracle.source dir p).2
        · exact absurd h1 (get_permissions_run_no_export_import oracle.target dir p).2
        · exact Or.inl h1
      · rcases sync_trace_sub env oracle sc tc git cid dir _ h with h1 | h1 | h1 | h1 | h1
        · cases h1
        · cases h1
        · exact absurd h1 (get_permissions_run_no_export_import oracle.source dir p).1
        · exact absurd h1 (get_permissions_run_no_export_import oracle.target dir p).1
        · exact Or.inr h1
    exact syncLoop_export_import_from_listing _ _ _ _ _ _ hp2

/-- Witness for C9: a listed DIRECTORY object is skipped without contributing
anything to the loop. -/
theorem only_notebooks_synced_witness :
    syncLoop wsOkW wsOkW none none (dirW :: []) = syncLoop wsOkW wsOkW none none [] :=
  (only_notebooks_synced envW oracleOkW "AWS" "AZURE" none none "/dir").1
    wsOkW wsOkW none none dirW [] "DIRECTORY" rfl (by decide)

end MultiCloud
